import Mathlib

/-!
Verification of the palindrome web service in `src/app.js`.

The JavaScript code is shallowly embedded: JS strings are modelled as
`String` (a list of Unicode code points); where the code manipulates
UTF-16 code units (`split('').reverse().join('')`), the unit sequence is
made explicit via `utf16Units`.  The ECMAScript built-ins
`String.prototype.toLowerCase` and `String.prototype.normalize('NFD')`
are modelled by `jsToLower` / `nfdChar`, faithful on the Basic Latin and
Latin-1 ranges (plus U+0130, U+0178, U+212A, U+212B) that the program's
documented inputs exercise, and the identity elsewhere.
-/

namespace PalindromeApp

/-- Model of `String.prototype.toLowerCase` (Unicode default case
conversion), faithful on ASCII `A`-`Z`, Latin-1 `À`-`Þ` (excluding `×`),
`İ` (which lowercases to `i` + combining dot above), `Ÿ`, and the Kelvin
and Angstrom signs; identity on all other code points. -/
def jsToLower (c : Char) : List Char :=
  if 0x41 ≤ c.toNat ∧ c.toNat ≤ 0x5A then [Char.ofNat (c.toNat + 0x20)]
  else if 0xC0 ≤ c.toNat ∧ c.toNat ≤ 0xDE ∧ c.toNat ≠ 0xD7 then [Char.ofNat (c.toNat + 0x20)]
  else if c.toNat = 0x130 then [Char.ofNat 0x69, Char.ofNat 0x307]
  else if c.toNat = 0x178 then [Char.ofNat 0xFF]
  else if c.toNat = 0x212A then [Char.ofNat 0x6B]
  else if c.toNat = 0x212B then [Char.ofNat 0xE5]
  else [c]

/-- Canonical decomposition (NFD) table for the Latin-1 letters with a
canonical decomposition: code point ↦ base letter + combining mark. -/
def nfdTable : List (Nat × List Nat) :=
  [ (0xC0, [0x41, 0x300]), (0xC1, [0x41, 0x301]), (0xC2, [0x41, 0x302])
  , (0xC3, [0x41, 0x303]), (0xC4, [0x41, 0x308]), (0xC5, [0x41, 0x30A])
  , (0xC7, [0x43, 0x327])
  , (0xC8, [0x45, 0x300]), (0xC9, [0x45, 0x301]), (0xCA, [0x45, 0x302])
  , (0xCB, [0x45, 0x308])
  , (0xCC, [0x49, 0x300]), (0xCD, [0x49, 0x301]), (0xCE, [0x49, 0x302])
  , (0xCF, [0x49, 0x308])
  , (0xD1, [0x4E, 0x303])
  , (0xD2, [0x4F, 0x300]), (0xD3, [0x4F, 0x301]), (0xD4, [0x4F, 0x302])
  , (0xD5, [0x4F, 0x303]), (0xD6, [0x4F, 0x308])
  , (0xD9, [0x55, 0x300]), (0xDA, [0x55, 0x301]), (0xDB, [0x55, 0x302])
  , (0xDC, [0x55, 0x308])
  , (0xDD, [0x59, 0x301])
  , (0xE0, [0x61, 0x300]), (0xE1, [0x61, 0x301]), (0xE2, [0x61, 0x302])
  , (0xE3, [0x61, 0x303]), (0xE4, [0x61, 0x308]), (0xE5, [0x61, 0x30A])
  , (0xE7, [0x63, 0x327])
  , (0xE8, [0x65, 0x300]), (0xE9, [0x65, 0x301]), (0xEA, [0x65, 0x302])
  , (0xEB, [0x65, 0x308])
  , (0xEC, [0x69, 0x300]), (0xED, [0x69, 0x301]), (0xEE, [0x69, 0x302])
  , (0xEF, [0x69, 0x308])
  , (0xF1, [0x6E, 0x303])
  , (0xF2, [0x6F, 0x300]), (0xF3, [0x6F, 0x301]), (0xF4, [0x6F, 0x302])
  , (0xF5, [0x6F, 0x303]), (0xF6, [0x6F, 0x308])
  , (0xF9, [0x75, 0x300]), (0xFA, [0x75, 0x301]), (0xFB, [0x75, 0x302])
  , (0xFC, [0x75, 0x308])
  , (0xFD, [0x79, 0x301])
  , (0xFF, [0x79, 0x308]) ]

/-- Model of `String.prototype.normalize('NFD')` acting on one code
point: Latin-1 accented letters decompose per `nfdTable`, every other
code point is left alone (ASCII and combining marks are NFD-inert). -/
def nfdChar (c : Char) : List Char :=
  match nfdTable.lookup c.toNat with
  | some ds => ds.map Char.ofNat
  | none => [c]

/-- The combining diacritical marks block: the regex class `[̀-ͯ]`
in `normalizeWord` (src/app.js line 52). -/
def isCombining (c : Char) : Bool := decide (0x300 ≤ c.toNat ∧ c.toNat ≤ 0x36F)

/-- The regex class `[a-z0-9]` retained by `normalizeWord` (line 53). -/
def isLowerAlnum (c : Char) : Bool :=
  decide ((0x61 ≤ c.toNat ∧ c.toNat ≤ 0x7A) ∨ (0x30 ≤ c.toNat ∧ c.toNat ≤ 0x39))

/-- The normalization pipeline of `normalizeWord` (src/app.js lines 48-54)
on a code-point list: `toLowerCase`, `normalize('NFD')`,
`replace(/[̀-ͯ]/g, '')`, `replace(/[^a-z0-9]/g, '')`. -/
def normalizeChars (l : List Char) : List Char :=
  let s := ((l.flatMap jsToLower).flatMap nfdChar).filter (fun c => !isCombining c)
  s.filter isLowerAlnum

/-- `normalizeWord(input)` with `String(input ?? '')`: an absent/null
input is treated as the empty string (src/app.js line 49). -/
def normalizeWordOpt (input : Option String) : String :=
  ⟨normalizeChars (input.getD "").data⟩

/-- `normalizeWord` applied to an actual string argument. -/
def normalizeWord (word : String) : String := normalizeWordOpt (some word)

/-- UTF-16 encoding of one code point: BMP code points are one unit,
others a surrogate pair.  JS `split('')` splits into these units. -/
def utf16Units (c : Char) : List Nat :=
  if c.toNat < 0x10000 then [c.toNat]
  else [0xD800 + (c.toNat - 0x10000) / 0x400, 0xDC00 + (c.toNat - 0x10000) % 0x400]

/-- The UTF-16 code-unit sequence of a string. -/
def strUnits (s : String) : List Nat := s.data.flatMap utf16Units

/-- Code-point reversal of a string. -/
def strReverse (s : String) : String := ⟨s.data.reverse⟩

/-- `isPalindrome` (src/app.js lines 57-62): normalize; the empty
normalized string is not a palindrome; otherwise compare with
`split('').reverse().join('')`, i.e. the UTF-16 code-unit reversal
(string equality in JS is equality of unit sequences). -/
def isPalindrome (word : String) : Bool :=
  let n := normalizeWord word
  if n = "" then false
  else strUnits n == (strUnits n).reverse

/-! ### Query-string and URL machinery (src/app.js lines 83-84, 106-107) -/

/-- JS `String.prototype.split(sep)` with a one-character separator:
every occurrence splits, empty segments are kept, `""` splits to `[""]`. -/
def splitOnChar (sep : Char) : List Char → List (List Char)
  | [] => [[]]
  | c :: rest =>
    match splitOnChar sep rest with
    | [] => [[]]
    | h :: t => if c = sep then [] :: h :: t else (c :: h) :: t

/-- Hexadecimal digit value, as accepted in `%XX` escapes. -/
def hexDigit (c : Char) : Option Nat :=
  let n := c.toNat
  if 0x30 ≤ n ∧ n ≤ 0x39 then some (n - 0x30)
  else if 0x41 ≤ n ∧ n ≤ 0x46 then some (n - 0x41 + 10)
  else if 0x61 ≤ n ∧ n ≤ 0x66 then some (n - 0x61 + 10)
  else none

/-- First pass of `querystring.parse`'s unescaping: `+` becomes a space,
a `%XX` escape becomes the byte `XX` (`Sum.inr`), any other character
passes through (`Sum.inl`); a malformed `%` is kept literally.  The
`fuel` argument only makes the recursion structural; every step consumes
at least one character and one unit of fuel, so starting the fuel at the
input length (as `pctScan` does) never exhausts it. -/
def pctScanF : Nat → List Char → List (Sum Char Nat)
  | 0, _ => []
  | _ + 1, [] => []
  | fuel + 1, '%' :: h1 :: h2 :: rest =>
    match hexDigit h1, hexDigit h2 with
    | some a, some b => Sum.inr (16 * a + b) :: pctScanF fuel rest
    | _, _ => Sum.inl '%' :: pctScanF fuel (h1 :: h2 :: rest)
  | fuel + 1, '+' :: rest => Sum.inl ' ' :: pctScanF fuel rest
  | fuel + 1, c :: rest => Sum.inl c :: pctScanF fuel rest

/-- The percent/plus scan at full fuel. -/
def pctScan (l : List Char) : List (Sum Char Nat) := pctScanF l.length l

/-- UTF-8 decoding of a byte run produced by `%XX` escapes, with U+FFFD
for an invalid sequence — the behaviour of `decodeURIComponent` /
`Buffer.toString('utf8')` underlying `querystring.unescape`.  As with
`pctScanF`, the `fuel` argument only makes the recursion structural and
is never exhausted when started at the input length. -/
def utf8DecodeF : Nat → List Nat → List Char
  | 0, _ => []
  | _ + 1, [] => []
  | fuel + 1, b :: rest =>
    if b ≤ 0x7F then Char.ofNat b :: utf8DecodeF fuel rest
    else if 0xC2 ≤ b ∧ b ≤ 0xDF then
      match rest with
      | [] => ['�']
      | b1 :: r =>
        if 0x80 ≤ b1 ∧ b1 ≤ 0xBF then
          Char.ofNat ((b - 0xC0) * 0x40 + (b1 - 0x80)) :: utf8DecodeF fuel r
        else '�' :: utf8DecodeF fuel (b1 :: r)
    else if 0xE0 ≤ b ∧ b ≤ 0xEF then
      match rest with
      | b1 :: b2 :: r =>
        if (0x80 ≤ b1 ∧ b1 ≤ 0xBF) ∧ (0x80 ≤ b2 ∧ b2 ≤ 0xBF) ∧
           (b = 0xE0 → 0xA0 ≤ b1) ∧ (b = 0xED → b1 ≤ 0x9F) then
          Char.ofNat ((b - 0xE0) * 0x1000 + (b1 - 0x80) * 0x40 + (b2 - 0x80)) ::
            utf8DecodeF fuel r
        else '�' :: utf8DecodeF fuel (b1 :: b2 :: r)
      | _ => ['�']
    else if 0xF0 ≤ b ∧ b ≤ 0xF4 then
      match rest with
      | b1 :: b2 :: b3 :: r =>
        if (0x80 ≤ b1 ∧ b1 ≤ 0xBF) ∧ (0x80 ≤ b2 ∧ b2 ≤ 0xBF) ∧
           (0x80 ≤ b3 ∧ b3 ≤ 0xBF) ∧
           (b = 0xF0 → 0x90 ≤ b1) ∧ (b = 0xF4 → b1 ≤ 0x8F) then
          Char.ofNat ((b - 0xF0) * 0x40000 + (b1 - 0x80) * 0x1000 +
            (b2 - 0x80) * 0x40 + (b3 - 0x80)) :: utf8DecodeF fuel r
        else '�' :: utf8DecodeF fuel (b1 :: b2 :: b3 :: r)
      | _ => ['�']
    else '�' :: utf8DecodeF fuel rest

/-- UTF-8 decoding at full fuel. -/
def utf8Decode (l : List Nat) : List Char := utf8DecodeF l.length l

/-- Splice the decoded percent bytes back into the character stream:
maximal byte runs are UTF-8-decoded in place. -/
def utf8Splice (l : List (Sum Char Nat)) : List Char :=
  let p := l.foldr
    (fun e acc =>
      match e, acc with
      | Sum.inr b, (bs, out) => (b :: bs, out)
      | Sum.inl c, (bs, out) => (([] : List Nat), c :: (utf8Decode bs ++ out)))
    (([] : List Nat), ([] : List Char))
  utf8Decode p.1 ++ p.2

/-- `querystring.unescape` together with the `+` → space replacement
that `querystring.parse` applies to keys and values. -/
def qsUnescape (s : String) : String := ⟨utf8Splice (pctScan s.data)⟩

/-- A value in the object returned by `querystring.parse`: a string for
a key seen once, an array for a repeated key. -/
inductive QSVal where
  | str (s : String)
  | arr (l : List String)
deriving DecidableEq, Repr

/-- Adding one decoded key/value pair to the parse result, following
`querystring.parse`: a new key maps to a string, a repeated key
accumulates its values into an array in first-occurrence position. -/
def qsInsert (k v : String) : List (String × QSVal) → List (String × QSVal)
  | [] => [(k, QSVal.str v)]
  | (k', w) :: rest =>
    if k' = k then
      match w with
      | QSVal.str s => (k', QSVal.arr [s, v]) :: rest
      | QSVal.arr l => (k', QSVal.arr (l ++ [v])) :: rest
    else (k', w) :: qsInsert k v rest

/-- One `&`-separated segment: split at the first `=` (a missing `=`
yields value `''`), unescape key and value. -/
def qsPair (seg : List Char) : String × String :=
  match splitOnChar '=' seg with
  | [] => ("", "")
  | k :: vs => (qsUnescape ⟨k⟩, qsUnescape ⟨(vs.intersperse ['=']).flatten⟩)

/-- `querystring.parse` (src/app.js line 84): split on `&`, skip empty
segments, decode each pair, and accumulate repeated keys into arrays. -/
def qsParse (qs : String) : List (String × QSVal) :=
  (splitOnChar '&' qs.data).foldl
    (fun m seg =>
      if seg = [] then m
      else
        let p := qsPair seg
        qsInsert p.1 p.2 m)
    []

/-- `String(v)` on a parsed query value: a string stays itself, an array
is rendered by `Array.prototype.toString`, the comma-join. -/
def jsStringOfVal : QSVal → String
  | QSVal.str s => s
  | QSVal.arr l => String.intercalate "," l

/-- The ECMAScript white-space and line-terminator set removed by
`String.prototype.trim`. -/
def jsIsWhite (c : Char) : Bool :=
  let n := c.toNat
  decide ((0x09 ≤ n ∧ n ≤ 0x0D) ∨ n = 0x20 ∨ n = 0xA0 ∨ n = 0x1680 ∨
    (0x2000 ≤ n ∧ n ≤ 0x200A) ∨ n = 0x2028 ∨ n = 0x2029 ∨ n = 0x202F ∨
    n = 0x205F ∨ n = 0x3000 ∨ n = 0xFEFF)

/-- `String.prototype.trim`: strip white space from both ends. -/
def jsTrim (s : String) : String :=
  ⟨((s.data.dropWhile jsIsWhite).reverse.dropWhile jsIsWhite).reverse⟩

/-! ### The HTTP request handler (src/app.js lines 75-143) -/

/-- An HTTP response as produced by `sendHtml` / `sendText`: status code,
`Content-Type` header value, body. -/
structure HttpResponse where
  status : Nat
  contentType : String
  body : String
deriving DecidableEq, Repr

/-- The `Content-Type` of `sendText` (src/app.js line 18). -/
def textPlainCT : String := "text/plain; charset=utf-8"

/-- The `Content-Type` of `sendHtml` (src/app.js line 12). -/
def textHtmlCT : String := "text/html; charset=utf-8"

/-- The `page` template (src/app.js lines 23-40) with the `${title}` and
`${body}` holes filled in. -/
def pageTemplate (title body : String) : String :=
  "<!doctype html>\n<html lang=\"es\">\n  <head>\n    <meta charset=\"utf-8\" />\n    <title>" ++
  title ++
  "</title>\n    <meta name=\"viewport\" content=\"width=device-width, initial-scale=1\" />\n    <style>\n      body\x7bfont-family: ui-sans-serif, system-ui, -apple-system, Segoe UI, Roboto, Ubuntu, Cantarell, Noto Sans, Arial; margin:2rem; line-height:1.55\x7d\n      input,button\x7bfont:inherit; padding:.5rem .7rem\x7d\n      label\x7bdisplay:block; margin:.75rem 0 .35rem\x7d\n      .muted\x7bcolor:#0008\x7d\n      code\x7bbackground:#0001; padding:.1rem .35rem; border-radius:4px\x7d\n    </style>\n  </head>\n  <body>" ++
  body ++
  "</body>\n</html>"

/-- The form page body passed to `page` on the `/` route (lines 90-99). -/
def rootFormBody : String :=
  "\n          <h1>Comprobar palíndromo</h1>\n          <p class=\"muted\">Este formulario envía una petición <code>GET</code> al endpoint <code>/comprobar</code>.</p>\n          <form action=\"/comprobar\" method=\"GET\">\n            <label for=\"palabra\">Palabra</label>\n            <input id=\"palabra\" name=\"palabra\" type=\"text\" required autocomplete=\"off\" />\n            <button type=\"submit\">Comprobar</button>\n          </form>\n          <p class=\"muted\">Ejemplos: radar, reconocer, “Anita lava la tina”, “Sé verlas al revés”.</p>\n        "

/-- The body passed to `page` on the 404 fallback (line 136). -/
def notFoundBody : String :=
  "<h1>404 - Ruta no encontrada</h1><p><a href=\"/\">Volver</a></p>"

/-- The 400 message for a missing/blank `palabra` (line 112). -/
def missingParamBody : String :=
  "Falta el parámetro \"palabra\". Ejemplo: /comprobar?palabra=radar"

/-- The line `logQuery` appends to `consultas.txt` (src/app.js
lines 65-71). -/
def logLine (originalWord : String) (result : Bool) : String :=
  "El usuario ha comprobado la palabra \"" ++ originalWord ++ "\" y " ++
    (if result then "es" else "NO es") ++ " un palíndromo.\n"

/-- `req.url.split('?')` mapped back to strings (line 83). -/
def urlParts (url : String) : List String :=
  (splitOnChar '?' url.data).map (fun l => (⟨l⟩ : String))

/-- `const [ pathname = '/' ] = req.url.split('?')` (line 83). -/
def pathnameOf (url : String) : String := (urlParts url).getD 0 "/"

/-- `const [ , queryString = '' ] = req.url.split('?')` (line 83). -/
def rawQueryOf (url : String) : String := (urlParts url).getD 1 ""

/-- `queryString.replace(/^\?/, '')` (line 84): drop one leading `?`. -/
def stripLeadQM (s : String) : String :=
  match s.data with
  | '?' :: rest => ⟨rest⟩
  | _ => s

/-- The parsed `query` object of the handler (line 84). -/
def queryOf (url : String) : List (String × QSVal) :=
  qsParse (stripLeadQM (rawQueryOf url))

/-- `query?.palabra != null ? String(query.palabra).trim() : ''`
(lines 106-107). -/
def palabraOf (url : String) : String :=
  match (queryOf url).lookup "palabra" with
  | some v => jsTrim (jsStringOfVal v)
  | none => ""

/-- Everything observable about one handler invocation: the HTTP
response, the line whose append `logQuery` attempted (if any), and
whether the `catch` around `logQuery` reported an error on the
operational console (line 127). -/
structure HandlerOutcome where
  resp : HttpResponse
  loggedLine : Option String
  logErrorReported : Bool
deriving DecidableEq, Repr

/-- The request handler passed to `http.createServer` (src/app.js
lines 75-143).  The outcome of the `fs.appendFile` inside `logQuery` is
the environment parameter `logAppendFails`; the handler's own logic is
total, so the outer `try`/`catch` 500 path is unreachable. -/
def handleRequest (method url : String) (logAppendFails : Bool) : HandlerOutcome :=
  if method ≠ "GET" then
    ⟨⟨405, textPlainCT, "Method Not Allowed"⟩, none, false⟩
  else if pathnameOf url = "/" then
    ⟨⟨200, textHtmlCT, pageTemplate "Comprobar palíndromo" rootFormBody⟩, none, false⟩
  else if pathnameOf url = "/comprobar" then
    if palabraOf url = "" then
      ⟨⟨400, textPlainCT, missingParamBody⟩, none, false⟩
    else
      let resultado := isPalindrome (palabraOf url)
      let mensaje := "La palabra " ++ palabraOf url ++ " " ++
        (if resultado then "es" else "NO es") ++ " un palíndromo"
      ⟨⟨200, textPlainCT, mensaje⟩, some (logLine (palabraOf url) resultado),
        logAppendFails⟩
  else
    ⟨⟨404, textHtmlCT, pageTemplate "404" notFoundBody⟩, none, false⟩

/-! ### Spec-side definitions (for the refinement claims) -/

/-- An ASCII letter (either case) or digit — the character class named
by the spec's normalization step 4 and its "single alphanumeric
character" edge case. -/
def isAsciiLetterOrDigit (c : Char) : Bool :=
  decide ((0x41 ≤ c.toNat ∧ c.toNat ≤ 0x5A) ∨ (0x61 ≤ c.toNat ∧ c.toNat ≤ 0x7A) ∨
    (0x30 ≤ c.toNat ∧ c.toNat ≤ 0x39))

/-- Normalization as the spec words it (§4.1 steps 1-4): lowercase the
text, decompose it (NFD) and strip exactly the combining-mark code
points U+0300-U+036F, then remove every character that is not an ASCII
letter or digit; absent/null input is empty text. -/
def specNormalize (input : Option String) : String :=
  ⟨((((input.getD "").data.flatMap jsToLower).flatMap nfdChar).filter
      (fun c => !isCombining c)).filter isAsciiLetterOrDigit⟩

/-! ### Helper lemmas -/

theorem char_toNat_ofNat {n : Nat} (h : n < 0xD800) : (Char.ofNat n).toNat = n := by
  have hv : n.isValidChar := Or.inl h
  simp [Char.ofNat, hv, Char.ofNatAux, Char.toNat, UInt32.toNat, BitVec.toNat_ofNatLt]

theorem lookup_eq_none_of_ne {α β : Type} [BEq α] [LawfulBEq α]
    {l : List (α × β)} {k : α} (h : ∀ p ∈ l, ¬ p.1 = k) : l.lookup k = none := by
  induction l with
  | nil => rfl
  | cons p t ih =>
    have h1 : ¬ p.1 = k := h p (List.mem_cons_self p t)
    have h2 : ∀ q ∈ t, ¬ q.1 = k := fun q hq => h q (List.mem_cons_of_mem p hq)
    cases p with
    | mk a b =>
      rw [List.lookup_cons]
      have hf : (k == a) = false := by
        simp only [beq_eq_false_iff_ne, ne_eq]
        intro he; exact h1 he.symm
      rw [hf]
      exact ih h2

theorem mem_of_lookup_eq_some {α β : Type} [BEq α] [LawfulBEq α]
    {l : List (α × β)} {k : α} {b : β} (h : l.lookup k = some b) : (k, b) ∈ l := by
  induction l with
  | nil => simp at h
  | cons p t ih =>
    cases p with
    | mk a v =>
      rw [List.lookup_cons] at h
      cases hka : (k == a) with
      | true =>
        rw [hka] at h
        have hk : k = a := eq_of_beq hka
        have hv : v = b := by simpa using h
        rw [hk, ← hv]
        exact List.mem_cons_self _ _
      | false =>
        rw [hka] at h
        exact List.mem_cons_of_mem _ (ih h)

theorem isLowerAlnum_iff {c : Char} :
    isLowerAlnum c = true ↔
      (0x61 ≤ c.toNat ∧ c.toNat ≤ 0x7A) ∨ (0x30 ≤ c.toNat ∧ c.toNat ≤ 0x39) := by
  simp [isLowerAlnum]

theorem jsToLower_fix {c : Char} (h : isLowerAlnum c = true) : jsToLower c = [c] := by
  have h' := isLowerAlnum_iff.mp h
  have h1 : ¬ (0x41 ≤ c.toNat ∧ c.toNat ≤ 0x5A) := by omega
  have h2 : ¬ (0xC0 ≤ c.toNat ∧ c.toNat ≤ 0xDE ∧ c.toNat ≠ 0xD7) := by omega
  have h3 : ¬ (c.toNat = 0x130) := by omega
  have h4 : ¬ (c.toNat = 0x178) := by omega
  have h5 : ¬ (c.toNat = 0x212A) := by omega
  have h6 : ¬ (c.toNat = 0x212B) := by omega
  unfold jsToLower
  simp only [if_neg h1, if_neg h2, if_neg h3, if_neg h4, if_neg h5, if_neg h6]

theorem nfdTable_keys : ∀ p ∈ nfdTable, 0xC0 ≤ p.1 ∧ p.1 ≤ 0xFF := by decide

theorem nfdChar_fix {c : Char} (h : c.toNat < 0xC0 ∨ 0xFF < c.toNat) :
    nfdChar c = [c] := by
  have hk : ∀ p ∈ nfdTable, ¬ p.1 = c.toNat := by
    intro p hp he
    have := nfdTable_keys p hp
    omega
  unfold nfdChar
  rw [lookup_eq_none_of_ne hk]

theorem nfdChar_fix_alnum {c : Char} (h : isLowerAlnum c = true) : nfdChar c = [c] :=
  nfdChar_fix (by have := isLowerAlnum_iff.mp h; omega)

theorem not_combining_alnum {c : Char} (h : isLowerAlnum c = true) :
    (!isCombining c) = true := by
  have h' := isLowerAlnum_iff.mp h
  simp only [isCombining, Bool.not_eq_true', decide_eq_false_iff_not]
  omega

theorem flatMap_eq_self {f : Char → List Char} {m : List Char}
    (h : ∀ c ∈ m, f c = [c]) : m.flatMap f = m := by
  induction m with
  | nil => rfl
  | cons c t ih =>
    rw [List.flatMap_cons, h c (List.mem_cons_self c t),
      ih (fun d hd => h d (List.mem_cons_of_mem c hd))]
    rfl

theorem normalizeChars_mem {l : List Char} :
    ∀ c ∈ normalizeChars l, isLowerAlnum c = true := by
  intro c hc
  unfold normalizeChars at hc
  exact (List.mem_filter.mp hc).2

theorem normalizeChars_fix {m : List Char} (h : ∀ c ∈ m, isLowerAlnum c = true) :
    normalizeChars m = m := by
  unfold normalizeChars
  rw [flatMap_eq_self (fun c hc => jsToLower_fix (h c hc)),
    flatMap_eq_self (fun c hc => nfdChar_fix_alnum (h c hc)),
    List.filter_eq_self.mpr (fun c hc => not_combining_alnum (h c hc)),
    List.filter_eq_self.mpr h]

theorem char_toNat_injective : Function.Injective Char.toNat := by
  intro a b h
  have h2 : Char.ofNat a.toNat = Char.ofNat b.toNat := by rw [h]
  rwa [Char.ofNat_toNat, Char.ofNat_toNat] at h2

theorem utf16Units_bmp {c : Char} (h : c.toNat < 0x10000) : utf16Units c = [c.toNat] := by
  unfold utf16Units
  rw [if_pos h]

theorem flatMap_utf16_eq_map {m : List Char} (h : ∀ c ∈ m, c.toNat < 0x10000) :
    m.flatMap utf16Units = m.map Char.toNat := by
  induction m with
  | nil => rfl
  | cons c t ih =>
    rw [List.flatMap_cons, utf16Units_bmp (h c (List.mem_cons_self c t)),
      ih (fun d hd => h d (List.mem_cons_of_mem c hd)), List.map_cons]
    rfl

theorem alnum_lt_bmp {c : Char} (h : isLowerAlnum c = true) : c.toNat < 0x10000 := by
  have := isLowerAlnum_iff.mp h
  omega

theorem nfdTable_key_ne_d7 : ∀ p ∈ nfdTable, ¬ p.1 = 0xD7 := by decide

theorem nfdTable_vals_lower :
    ∀ p ∈ nfdTable, 0xDF ≤ p.1 → ∀ v ∈ p.2, v < 0xD800 ∧ ¬ (0x41 ≤ v ∧ v ≤ 0x5A) := by
  decide

theorem nfd_no_upper {e : Char}
    (hne : ¬ (0x41 ≤ e.toNat ∧ e.toNat ≤ 0x5A))
    (hkey : e.toNat < 0xC0 ∨ e.toNat = 0xD7 ∨ 0xDF ≤ e.toNat) :
    ∀ d ∈ nfdChar e, ¬ (0x41 ≤ d.toNat ∧ d.toNat ≤ 0x5A) := by
  intro d hd
  cases hlk : nfdTable.lookup e.toNat with
  | none =>
    have hfix : nfdChar e = [e] := by unfold nfdChar; rw [hlk]
    rw [hfix] at hd
    rw [List.mem_singleton.mp hd]
    exact hne
  | some ds =>
    have hmap : nfdChar e = ds.map Char.ofNat := by unfold nfdChar; rw [hlk]
    rw [hmap] at hd
    obtain ⟨v, hv, hdv⟩ := List.mem_map.mp hd
    have hent := mem_of_lookup_eq_some hlk
    have hk1 := nfdTable_keys _ hent
    have hk2 := nfdTable_key_ne_d7 _ hent
    have hge : 0xDF ≤ e.toNat := by
      simp only at hk1 hk2
      omega
    have hvv := nfdTable_vals_lower _ hent hge v hv
    have hdn : d.toNat = v := by rw [← hdv]; exact char_toNat_ofNat hvv.1
    omega

theorem lower_out_bounds (c : Char) :
    ∀ e ∈ jsToLower c, ¬ (0x41 ≤ e.toNat ∧ e.toNat ≤ 0x5A) ∧
      (e.toNat < 0xC0 ∨ e.toNat = 0xD7 ∨ 0xDF ≤ e.toNat) := by
  intro e he
  unfold jsToLower at he
  by_cases h1 : 0x41 ≤ c.toNat ∧ c.toNat ≤ 0x5A
  · rw [if_pos h1] at he
    have ht : e.toNat = c.toNat + 0x20 := by
      rw [List.mem_singleton.mp he]; exact char_toNat_ofNat (by omega)
    omega
  · rw [if_neg h1] at he
    by_cases h2 : 0xC0 ≤ c.toNat ∧ c.toNat ≤ 0xDE ∧ c.toNat ≠ 0xD7
    · rw [if_pos h2] at he
      have ht : e.toNat = c.toNat + 0x20 := by
        rw [List.mem_singleton.mp he]; exact char_toNat_ofNat (by omega)
      omega
    · rw [if_neg h2] at he
      by_cases h3 : c.toNat = 0x130
      · rw [if_pos h3] at he
        have : e = Char.ofNat 0x69 ∨ e = Char.ofNat 0x307 := by simpa using he
        rcases this with he' | he' <;> rw [he'] <;> exact ⟨by decide, by decide⟩
      · rw [if_neg h3] at he
        by_cases h4 : c.toNat = 0x178
        · rw [if_pos h4] at he
          rw [List.mem_singleton.mp he]; exact ⟨by decide, by decide⟩
        · rw [if_neg h4] at he
          by_cases h5 : c.toNat = 0x212A
          · rw [if_pos h5] at he
            rw [List.mem_singleton.mp he]; exact ⟨by decide, by decide⟩
          · rw [if_neg h5] at he
            by_cases h6 : c.toNat = 0x212B
            · rw [if_pos h6] at he
              rw [List.mem_singleton.mp he]; exact ⟨by decide, by decide⟩
            · rw [if_neg h6] at he
              rw [List.mem_singleton.mp he]
              exact ⟨h1, by omega⟩

theorem lower_nfd_no_upper (c : Char) :
    ∀ e ∈ jsToLower c, ∀ d ∈ nfdChar e, ¬ (0x41 ≤ d.toNat ∧ d.toNat ≤ 0x5A) := by
  intro e he
  have hb := lower_out_bounds c e he
  exact nfd_no_upper hb.1 hb.2

/-! ### Claim theorems -/

/-- C2: for every input (absent/null treated as empty text),
`normalizeWord` equals the spec's composition: lowercase, decompose
(NFD) and strip exactly U+0300-U+036F, then remove every character that
is not an ASCII letter or digit. -/
theorem normalizeWord_eq_specNormalize (input : Option String) :
    normalizeWordOpt input = specNormalize input := by
  unfold normalizeWordOpt specNormalize normalizeChars
  apply String.ext
  show List.filter isLowerAlnum _ = List.filter isAsciiLetterOrDigit _
  apply List.filter_congr
  intro d hd
  have hd2 := (List.mem_filter.mp hd).1
  obtain ⟨e, he, hde⟩ := List.mem_flatMap.mp hd2
  obtain ⟨c, _, hce⟩ := List.mem_flatMap.mp he
  have hnu := lower_nfd_no_upper c e hce d hde
  unfold isLowerAlnum isAsciiLetterOrDigit
  rw [decide_eq_decide]
  omega

/-- C9: normalization is idempotent. -/
theorem normalizeWord_idempotent (s : String) :
    normalizeWord (normalizeWord s) = normalizeWord s := by
  unfold normalizeWord normalizeWordOpt
  simp only [Option.getD_some]
  exact congrArg String.mk (normalizeChars_fix normalizeChars_mem)

/-- C10: every character of `normalizeWord`'s output is an ASCII
lowercase letter or digit, so the UTF-16 code-unit reversal performed by
`split('').reverse().join('')` coincides with code-point reversal on the
normalized text. -/
theorem normalizeWord_ascii_units (w : String) :
    (∀ c ∈ (normalizeWord w).data, isLowerAlnum c = true) ∧
    strUnits (strReverse (normalizeWord w)) = (strUnits (normalizeWord w)).reverse := by
  have hmem : ∀ c ∈ (normalizeWord w).data, isLowerAlnum c = true := fun c hc =>
    normalizeChars_mem c hc
  refine ⟨hmem, ?_⟩
  have hb : ∀ c ∈ (normalizeWord w).data, c.toNat < 0x10000 := fun c hc =>
    alnum_lt_bmp (hmem c hc)
  have hb' : ∀ c ∈ (normalizeWord w).data.reverse, c.toNat < 0x10000 := fun c hc =>
    hb c (List.mem_reverse.mp hc)
  show (normalizeWord w).data.reverse.flatMap utf16Units =
    ((normalizeWord w).data.flatMap utf16Units).reverse
  rw [flatMap_utf16_eq_map hb', flatMap_utf16_eq_map hb, List.map_reverse]

/-- C1: `isPalindrome` normalizes its input, returns false when the
normalized text is empty, and otherwise returns true iff the normalized
text equals its character (code-point) reversal. -/
theorem isPalindrome_spec (w : String) :
    isPalindrome w =
      if normalizeWord w = "" then false
      else decide (normalizeWord w = strReverse (normalizeWord w)) := by
  show (if normalizeWord w = "" then false
    else strUnits (normalizeWord w) == (strUnits (normalizeWord w)).reverse) = _
  by_cases h : normalizeWord w = ""
  · rw [if_pos h, if_pos h]
  · rw [if_neg h, if_neg h]
    have hmem : ∀ c ∈ (normalizeWord w).data, isLowerAlnum c = true := fun c hc =>
      normalizeChars_mem c hc
    have hb : ∀ c ∈ (normalizeWord w).data, c.toNat < 0x10000 := fun c hc =>
      alnum_lt_bmp (hmem c hc)
    have hb' : ∀ c ∈ (normalizeWord w).data.reverse, c.toNat < 0x10000 := fun c hc =>
      hb c (List.mem_reverse.mp hc)
    have hu : strUnits (normalizeWord w) = (normalizeWord w).data.map Char.toNat :=
      flatMap_utf16_eq_map hb
    rw [Bool.eq_iff_iff, beq_iff_eq, decide_eq_true_eq, hu, ← List.map_reverse]
    constructor
    · intro hmap
      exact String.ext (List.map_injective_iff.mpr char_toNat_injective hmap)
    · intro hss
      have hdd : (normalizeWord w).data = (normalizeWord w).data.reverse :=
        congrArg String.data hss
      rw [← hdd]

/-- C7: the documented examples — the multi-word phrase
"Anita lava la tina" and the accented phrase "Sé verlas al revés" are
palindromes, "hola" is not. -/
theorem isPalindrome_examples :
    isPalindrome "Anita lava la tina" = true ∧
    isPalindrome "Sé verlas al revés" = true ∧
    isPalindrome "hola" = false :=
  ⟨by decide, by decide, by decide⟩

theorem normalizeChars_singleton (c : Char) :
    normalizeChars [c] =
      (((jsToLower c).flatMap nfdChar).filter (fun d => !isCombining d)).filter
        isLowerAlnum := by
  unfold normalizeChars
  rw [show [c].flatMap jsToLower = jsToLower c by simp]

theorem pipeline_single {d : Char} (hd : isLowerAlnum d = true) :
    ((([d] : List Char).flatMap nfdChar).filter (fun e => !isCombining e)).filter
      isLowerAlnum = [d] := by
  have h1 : ([d] : List Char).flatMap nfdChar = [d] :=
    flatMap_eq_self (fun c hc => by rw [List.mem_singleton.mp hc]; exact nfdChar_fix_alnum hd)
  have h2 : List.filter (fun e => !isCombining e) [d] = [d] :=
    List.filter_eq_self.mpr
      (fun c hc => by rw [List.mem_singleton.mp hc]; exact not_combining_alnum hd)
  have h3 : List.filter isLowerAlnum [d] = [d] :=
    List.filter_eq_self.mpr (fun c hc => by rw [List.mem_singleton.mp hc]; exact hd)
  rw [h1, h2, h3]

/-- C8: a single ASCII alphanumeric character (either case) is always a
palindrome: its normalization is a nonempty single character. -/
theorem isPalindrome_single_alnum (c : Char) (h : isAsciiLetterOrDigit c = true) :
    isPalindrome (String.singleton c) = true := by
  have h' : (0x41 ≤ c.toNat ∧ c.toNat ≤ 0x5A) ∨ (0x61 ≤ c.toNat ∧ c.toNat ≤ 0x7A) ∨
      (0x30 ≤ c.toNat ∧ c.toNat ≤ 0x39) := by simpa [isAsciiLetterOrDigit] using h
  obtain ⟨d, hd, hnd⟩ : ∃ d, isLowerAlnum d = true ∧ normalizeChars [c] = [d] := by
    by_cases hu : 0x41 ≤ c.toNat ∧ c.toNat ≤ 0x5A
    · have ht : (Char.ofNat (c.toNat + 0x20)).toNat = c.toNat + 0x20 :=
        char_toNat_ofNat (by omega)
      have hdl : isLowerAlnum (Char.ofNat (c.toNat + 0x20)) = true :=
        isLowerAlnum_iff.mpr (Or.inl ⟨by rw [ht]; omega, by rw [ht]; omega⟩)
      refine ⟨_, hdl, ?_⟩
      rw [normalizeChars_singleton]
      have hl : jsToLower c = [Char.ofNat (c.toNat + 0x20)] := by
        unfold jsToLower; rw [if_pos hu]
      rw [hl]
      exact pipeline_single hdl
    · have hlow : isLowerAlnum c = true := isLowerAlnum_iff.mpr (by omega)
      refine ⟨c, hlow, ?_⟩
      rw [normalizeChars_singleton, jsToLower_fix hlow]
      exact pipeline_single hlow
  have hn : normalizeWord (String.singleton c) = ⟨[d]⟩ := by
    show (⟨normalizeChars [c]⟩ : String) = ⟨[d]⟩
    rw [hnd]
  show (if normalizeWord (String.singleton c) = "" then false
    else strUnits (normalizeWord (String.singleton c)) ==
      (strUnits (normalizeWord (String.singleton c))).reverse) = true
  rw [hn]
  have hne : ¬ ((⟨[d]⟩ : String) = "") := by
    intro hh
    have h2 : ([d] : List Char) = "".data := congrArg String.data hh
    have h3 : ([d] : List Char) = [] := h2
    exact List.cons_ne_nil d [] h3
  rw [if_neg hne]
  have hu16 : strUnits (⟨[d]⟩ : String) = [d.toNat] := by
    show [d].flatMap utf16Units = [d.toNat]
    rw [List.flatMap_cons, utf16Units_bmp (alnum_lt_bmp hd)]
    rfl
  rw [hu16]
  simp

/-- Witness for C8 at the concrete character `A`. -/
theorem isPalindrome_single_alnum_witness :
    isAsciiLetterOrDigit 'A' = true ∧ isPalindrome (String.singleton 'A') = true :=
  ⟨by decide, isPalindrome_single_alnum 'A' (by decide)⟩

theorem handleRequest_comprobar (url : String) (lf : Bool)
    (h : pathnameOf url = "/comprobar") :
    handleRequest "GET" url lf =
      if palabraOf url = "" then
        ⟨⟨400, textPlainCT, missingParamBody⟩, none, false⟩
      else
        ⟨⟨200, textPlainCT, "La palabra " ++ palabraOf url ++ " " ++
            (if isPalindrome (palabraOf url) then "es" else "NO es") ++ " un palíndromo"⟩,
          some (logLine (palabraOf url) (isPalindrome (palabraOf url))), lf⟩ := by
  unfold handleRequest
  rw [if_neg (show ¬ (("GET" : String) ≠ "GET") by simp)]
  rw [if_neg (show ¬ pathnameOf url = "/" by rw [h]; decide)]
  rw [if_pos h]

/-- C3: on the `/comprobar` route, a missing or blank (after trimming)
`palabra` yields a plain-text 400; otherwise the response is a 200 whose
body is exactly the success message for the trimmed raw value. -/
theorem comprobar_route_spec (url : String) (lf : Bool)
    (h : pathnameOf url = "/comprobar") :
    (palabraOf url = "" →
      (handleRequest "GET" url lf).resp = ⟨400, textPlainCT, missingParamBody⟩) ∧
    (palabraOf url ≠ "" →
      (handleRequest "GET" url lf).resp = ⟨200, textPlainCT,
        "La palabra " ++ palabraOf url ++ " " ++
          (if isPalindrome (palabraOf url) then "es" else "NO es") ++ " un palíndromo"⟩) := by
  rw [handleRequest_comprobar url lf h]
  constructor
  · intro hp; rw [if_pos hp]
  · intro hp; rw [if_neg hp]

/-- Witness for C3 at `palabra=radar`. -/
theorem comprobar_route_spec_witness :
    pathnameOf "/comprobar?palabra=radar" = "/comprobar" ∧
    (handleRequest "GET" "/comprobar?palabra=radar" false).resp =
      ⟨200, textPlainCT, "La palabra radar es un palíndromo"⟩ := by
  constructor
  · decide
  · have h := (comprobar_route_spec "/comprobar?palabra=radar" false (by decide)).2 (by decide)
    rw [h]
    decide

/-- C4 fails as stated: with `palabra=oro&palabra=x` the last occurrence
is `x`, but the value used is the comma-join `oro,x` (and the response
reflects it). -/
theorem palabra_repeated_counterexample :
    palabraOf "/comprobar?palabra=oro&palabra=x" = "oro,x" ∧
    ("oro,x" : String) ≠ "x" ∧
    (handleRequest "GET" "/comprobar?palabra=oro&palabra=x" false).resp.body =
      "La palabra oro,x NO es un palíndromo" :=
  ⟨by decide, by decide, by decide⟩

/-- C4 amended: when the `palabra` key is repeated, `querystring.parse`
collects its values into an array and `String()` joins them with commas,
so the value used is the trimmed comma-join of all occurrences. -/
theorem palabra_repeated_comma_join (url : String) (ss : List String)
    (h : (queryOf url).lookup "palabra" = some (QSVal.arr ss)) :
    palabraOf url = jsTrim (String.intercalate "," ss) := by
  unfold palabraOf
  rw [h]
  rfl

/-- Witness for the amended C4 at `palabra=oro&palabra=x`. -/
theorem palabra_repeated_comma_join_witness :
    (queryOf "/comprobar?palabra=oro&palabra=x").lookup "palabra" =
      some (QSVal.arr ["oro", "x"]) ∧
    palabraOf "/comprobar?palabra=oro&palabra=x" =
      jsTrim (String.intercalate "," ["oro", "x"]) :=
  ⟨by decide, palabra_repeated_comma_join "/comprobar?palabra=oro&palabra=x" ["oro", "x"]
    (by decide)⟩

/-- C5: on a valid `/comprobar` request the HTTP response does not
depend on whether the log append fails, and it is the 200 success
response either way. -/
theorem logging_failure_no_effect (url : String)
    (h : pathnameOf url = "/comprobar") (h2 : palabraOf url ≠ "") :
    (handleRequest "GET" url true).resp = (handleRequest "GET" url false).resp ∧
    (handleRequest "GET" url true).resp.status = 200 := by
  rw [handleRequest_comprobar url true h, handleRequest_comprobar url false h,
    if_neg h2, if_neg h2]
  exact ⟨rfl, rfl⟩

/-- Witness for C5 at `palabra=radar`. -/
theorem logging_failure_no_effect_witness :
    pathnameOf "/comprobar?palabra=radar" = "/comprobar" ∧
    palabraOf "/comprobar?palabra=radar" ≠ "" ∧
    (handleRequest "GET" "/comprobar?palabra=radar" true).resp =
      (handleRequest "GET" "/comprobar?palabra=radar" false).resp :=
  ⟨by decide, by decide,
    (logging_failure_no_effect "/comprobar?palabra=radar" (by decide) (by decide)).1⟩

/-- C6: a successful `/comprobar` invocation attempts to append exactly
the documented log line, whose es/NO-es choice matches the verdict in
the response body. -/
theorem comprobar_log_line (url : String) (lf : Bool)
    (h : pathnameOf url = "/comprobar") (h2 : palabraOf url ≠ "") :
    (handleRequest "GET" url lf).loggedLine =
      some ("El usuario ha comprobado la palabra \"" ++ palabraOf url ++ "\" y " ++
        (if isPalindrome (palabraOf url) then "es" else "NO es") ++ " un palíndromo.\n") ∧
    (handleRequest "GET" url lf).resp.body =
      "La palabra " ++ palabraOf url ++ " " ++
        (if isPalindrome (palabraOf url) then "es" else "NO es") ++ " un palíndromo" := by
  rw [handleRequest_comprobar url lf h, if_neg h2]
  exact ⟨rfl, rfl⟩

/-- Witness for C6 at `palabra=radar`. -/
theorem comprobar_log_line_witness :
    (handleRequest "GET" "/comprobar?palabra=radar" false).loggedLine =
      some "El usuario ha comprobado la palabra \"radar\" y es un palíndromo.\n" := by
  have h := (comprobar_log_line "/comprobar?palabra=radar" false (by decide) (by decide)).1
  rw [h]
  decide

example : isPalindrome "radar" = true := by decide
example : isPalindrome "Radar" = true := by decide
example : isPalindrome "hola" = false := by decide
example : isPalindrome "" = false := by decide
example : isPalindrome "   " = false := by decide
example : normalizeWord "Sé verlas al revés" = "severlasalreves" := by decide
example : (handleRequest "GET" "/comprobar?palabra=radar" false).resp =
    ⟨200, textPlainCT, "La palabra radar es un palíndromo"⟩ := by decide
example : (handleRequest "GET" "/comprobar?palabra=hola" false).resp =
    ⟨200, textPlainCT, "La palabra hola NO es un palíndromo"⟩ := by decide
example : (handleRequest "GET" "/comprobar" false).resp.status = 400 := by decide
example : (handleRequest "GET" "/comprobar?palabra=++" false).resp.status = 400 := by decide
example : (handleRequest "POST" "/" false).resp.status = 405 := by decide
example : palabraOf "/comprobar?palabra=oro&palabra=x" = "oro,x" := by decide
example : (handleRequest "GET" "/comprobar?palabra=radar" false).loggedLine =
    some "El usuario ha comprobado la palabra \"radar\" y es un palíndromo.\n" := by decide
example : palabraOf "/comprobar?palabra=S%C3%A9+verlas" = "Sé verlas" := by decide

end PalindromeApp
